import Mathlib

/-
  Verification of the core ring engine of the go-iouring library.

  This file shallowly embeds the library code (ring.go, cqe.go, and the
  SQE-preparation / probe files) into Lean: Go uint32 arithmetic is Nat
  with explicit reduction modulo 2^32; the mmapped arrays are Lists; the
  enter syscall is an abstract environment (the kernel side) that maps a
  shared-memory ring state to an updated state plus a result.
-/

namespace IoUring

/-- Size of the uint32 value space; all shared-ring counters are uint32. -/
def U32 : Nat := 2 ^ 32

/-- Addition of two uint32 values (Go wraps modulo 2^32). -/
def add32 (a b : Nat) : Nat := (a + b) % U32

/-- Subtraction a - b on uint32 values (Go wraps modulo 2^32). -/
def sub32 (a b : Nat) : Nat := (a % U32 + U32 - b % U32) % U32

-- Constants from internal/sys/consts.go.
def IORING_SETUP_SQPOLL : Nat := 2
def IORING_SETUP_SQ_AFF : Nat := 4
def IORING_ENTER_GETEVENTS : Nat := 1
def IORING_ENTER_SQ_WAKEUP : Nat := 2
def IORING_SQ_NEED_WAKEUP : Nat := 1
def IORING_FEAT_SINGLE_MMAP : Nat := 1
def IORING_FEAT_EXT_ARG : Nat := 256
def IOSQE_IO_LINK : Nat := 4
def IOSQE_ASYNC : Nat := 16
def IORING_OP_NOP : Nat := 0
def IORING_OP_READV : Nat := 1
def IORING_OP_WRITEV : Nat := 2
def IORING_OP_READ_FIXED : Nat := 4
def IORING_OP_WRITE_FIXED : Nat := 5
def IORING_OP_READ : Nat := 22
def IORING_OP_WRITE : Nat := 23
def IORING_OP_SEND : Nat := 26
def IORING_OP_RECV : Nat := 27

-- Unix error numbers (Linux x86-64), as used via the syscall package.
def EINTR : Nat := 4
def EAGAIN : Nat := 11
def EINVAL : Nat := 22
def ETIME : Nat := 62

/-- Submission queue entry, mirroring sys.SQE (internal/sys/types.go). -/
structure SQE where
  opcode : Nat
  flags : Nat
  ioprio : Nat
  fd : Int
  off : Nat
  addr : Nat
  len : Nat
  opFlags : Nat
  userData : Nat
  bufIndex : Nat
  personality : Nat
  spliceFdIn : Int
  addr3 : Nat
  deriving DecidableEq, Repr

/-- SQE.Reset zeroes the entry: `*s = SQE{}`. -/
def SQE.reset : SQE := ⟨0, 0, 0, 0, 0, 0, 0, 0, 0, 0, 0, 0, 0⟩

/-- Completion queue entry, mirroring sys.CQE (user_data, res, flags). -/
structure CQE where
  userData : Nat
  res : Int
  flags : Nat
  deriving DecidableEq, Repr

/-- Library error taxonomy: the package-level error values of ring.go plus
raw kernel errnos returned through the syscall layer. -/
inductive Err where
  | RingClosed
  | SQFull
  | CQOverflow
  | NotSupported
  | errno (e : Nat)
  deriving DecidableEq, Repr

/-- The Ring state: the library-visible fields of the Go Ring struct
together with the shared-memory words the mmapped regions expose
(sqHead, sqTail, sqFlags, the index array, the SQE array, cqHead, cqTail,
the CQE array).  paramsFlags is params.Flags from setup. -/
structure Ring where
  fd : Nat
  paramsFlags : Nat
  features : Nat
  sqEntries : Nat
  sqMask : Nat
  sqHead : Nat
  sqTail : Nat
  sqFlags : Nat
  sqArray : List Nat
  sqes : List SQE
  cqEntries : Nat
  cqMask : Nat
  cqHead : Nat
  cqTail : Nat
  cqes : List CQE
  sqPending : Nat
  closed : Bool
  deriving DecidableEq, Repr

/-- The ring state immediately after a successful New(entries) on a kernel
that honored the requested size: heads, tails, flags and pending are zero,
the mask is entries-1, the CQ defaults to twice the SQ size. -/
def freshRing (entries : Nat) : Ring :=
  { fd := 3
    paramsFlags := 0
    features := 0
    sqEntries := entries
    sqMask := entries - 1
    sqHead := 0
    sqTail := 0
    sqFlags := 0
    sqArray := List.replicate entries 0
    sqes := List.replicate entries SQE.reset
    cqEntries := 2 * entries
    cqMask := 2 * entries - 1
    cqHead := 0
    cqTail := 0
    cqes := List.replicate (2 * entries) ⟨0, 0, 0⟩
    sqPending := 0
    closed := false }

/-- Read the SQE at an index of the entry array (the Go code indexes the
mmapped sqes slice). -/
def sqeAt (r : Ring) (idx : Nat) : SQE := r.sqes.getD idx SQE.reset

/-- Overwrite the SQE at an index of the entry array. -/
def setSQE (r : Ring) (idx : Nat) (s : SQE) : Ring :=
  { r with sqes := r.sqes.set idx s }

/-- getSQE from the SQE-preparation file: returns the reserved slot index,
or none when published-plus-pending reaches capacity.  On success the
entry is zeroed, the index array at the slot is set to the slot, and the
pending counter is incremented.  On failure the state is untouched. -/
def getSQE (r : Ring) : Ring × Option Nat :=
  let head := r.sqHead
  let tail := add32 r.sqTail r.sqPending
  if r.sqEntries ≤ sub32 tail head then (r, none)
  else
    let idx := tail &&& r.sqMask
    ({ r with
        sqes := r.sqes.set idx SQE.reset
        sqArray := r.sqArray.set idx idx
        sqPending := add32 r.sqPending 1 }, some idx)

/-- PrepNop: reserve an entry and set opcode NOP and the user token. -/
def PrepNop (r : Ring) (userData : Nat) : Ring × Option Err :=
  match getSQE r with
  | (r1, none) => (r1, some .SQFull)
  | (r1, some idx) =>
      let s := sqeAt r1 idx
      (setSQE r1 idx { s with opcode := IORING_OP_NOP, userData := userData }, none)

/-- PrepRead: empty buffers return success immediately; otherwise reserve
and fill fd, address, length, offset and user token.  bufAddr/bufLen stand
for the address of buf[0] and len(buf). -/
def PrepRead (r : Ring) (fd : Int) (bufAddr bufLen offset userData : Nat) :
    Ring × Option Err :=
  if bufLen = 0 then (r, none)
  else
    match getSQE r with
    | (r1, none) => (r1, some .SQFull)
    | (r1, some idx) =>
        let s := sqeAt r1 idx
        (setSQE r1 idx { s with
            opcode := IORING_OP_READ, fd := fd, addr := bufAddr,
            len := bufLen % U32, off := offset, userData := userData }, none)

/-- PrepWrite, structured exactly as PrepRead with opcode WRITE. -/
def PrepWrite (r : Ring) (fd : Int) (bufAddr bufLen offset userData : Nat) :
    Ring × Option Err :=
  if bufLen = 0 then (r, none)
  else
    match getSQE r with
    | (r1, none) => (r1, some .SQFull)
    | (r1, some idx) =>
        let s := sqeAt r1 idx
        (setSQE r1 idx { s with
            opcode := IORING_OP_WRITE, fd := fd, addr := bufAddr,
            len := bufLen % U32, off := offset, userData := userData }, none)

/-- PrepReadFixed: as PrepRead plus the registered-buffer index. -/
def PrepReadFixed (r : Ring) (fd : Int) (bufAddr bufLen offset bufIndex userData : Nat) :
    Ring × Option Err :=
  if bufLen = 0 then (r, none)
  else
    match getSQE r with
    | (r1, none) => (r1, some .SQFull)
    | (r1, some idx) =>
        let s := sqeAt r1 idx
        (setSQE r1 idx { s with
            opcode := IORING_OP_READ_FIXED, fd := fd, addr := bufAddr,
            len := bufLen % U32, off := offset, bufIndex := bufIndex,
            userData := userData }, none)

/-- PrepWriteFixed: as PrepWrite plus the registered-buffer index. -/
def PrepWriteFixed (r : Ring) (fd : Int) (bufAddr bufLen offset bufIndex userData : Nat) :
    Ring × Option Err :=
  if bufLen = 0 then (r, none)
  else
    match getSQE r with
    | (r1, none) => (r1, some .SQFull)
    | (r1, some idx) =>
        let s := sqeAt r1 idx
        (setSQE r1 idx { s with
            opcode := IORING_OP_WRITE_FIXED, fd := fd, addr := bufAddr,
            len := bufLen % U32, off := offset, bufIndex := bufIndex,
            userData := userData }, none)

/-- PrepReadv: empty iovec slices return success immediately; iovAddr and
iovCount stand for the address of iovecs[0] and len(iovecs). -/
def PrepReadv (r : Ring) (fd : Int) (iovAddr iovCount offset userData : Nat) :
    Ring × Option Err :=
  if iovCount = 0 then (r, none)
  else
    match getSQE r with
    | (r1, none) => (r1, some .SQFull)
    | (r1, some idx) =>
        let s := sqeAt r1 idx
        (setSQE r1 idx { s with
            opcode := IORING_OP_READV, fd := fd, addr := iovAddr,
            len := iovCount % U32, off := offset, userData := userData }, none)

/-- PrepWritev, structured exactly as PrepReadv with opcode WRITEV. -/
def PrepWritev (r : Ring) (fd : Int) (iovAddr iovCount offset userData : Nat) :
    Ring × Option Err :=
  if iovCount = 0 then (r, none)
  else
    match getSQE r with
    | (r1, none) => (r1, some .SQFull)
    | (r1, some idx) =>
        let s := sqeAt r1 idx
        (setSQE r1 idx { s with
            opcode := IORING_OP_WRITEV, fd := fd, addr := iovAddr,
            len := iovCount % U32, off := offset, userData := userData }, none)

/-- PrepSend: empty buffers return success immediately; sendFlags is the
uint32 image of the Go int flags argument. -/
def PrepSend (r : Ring) (fd : Int) (bufAddr bufLen sendFlags userData : Nat) :
    Ring × Option Err :=
  if bufLen = 0 then (r, none)
  else
    match getSQE r with
    | (r1, none) => (r1, some .SQFull)
    | (r1, some idx) =>
        let s := sqeAt r1 idx
        (setSQE r1 idx { s with
            opcode := IORING_OP_SEND, fd := fd, addr := bufAddr,
            len := bufLen % U32, opFlags := sendFlags % U32,
            userData := userData }, none)

/-- PrepRecv, structured exactly as PrepSend with opcode RECV. -/
def PrepRecv (r : Ring) (fd : Int) (bufAddr bufLen recvFlags userData : Nat) :
    Ring × Option Err :=
  if bufLen = 0 then (r, none)
  else
    match getSQE r with
    | (r1, none) => (r1, some .SQFull)
    | (r1, some idx) =>
        let s := sqeAt r1 idx
        (setSQE r1 idx { s with
            opcode := IORING_OP_RECV, fd := fd, addr := bufAddr,
            len := bufLen % U32, opFlags := recvFlags % U32,
            userData := userData }, none)

/-- SetSQEFlags: when at least one entry is pending, OR the given bits into
the flags byte of the most recently reserved entry (slot (tail+pending-1)
masked); otherwise do nothing. -/
def SetSQEFlags (r : Ring) (flags : Nat) : Ring :=
  if 0 < r.sqPending then
    let tail := sub32 (add32 r.sqTail r.sqPending) 1
    let idx := tail &&& r.sqMask
    let s := sqeAt r idx
    setSQE r idx { s with flags := s.flags ||| flags }
  else r

/-- SetSQELink ORs the chain-link flag into the last reserved entry. -/
def SetSQELink (r : Ring) : Ring := SetSQEFlags r IOSQE_IO_LINK

/-- SetSQEAsync ORs the force-async flag into the last reserved entry. -/
def SetSQEAsync (r : Ring) : Ring := SetSQEFlags r IOSQE_ASYNC

/-- Result of one io_uring_enter syscall: the kernel's accepted-submission
count, or a failing errno. -/
inductive EnterResult where
  | ok (n : Nat)
  | fail (errno : Nat)
  deriving DecidableEq, Repr

/-- The kernel side of an enter syscall, abstracted: it observes the shared
ring state and may update the kernel-owned words (sqHead, sqFlags, cqTail,
the CQE array, the overflow counter) before returning. -/
structure EnterModel where
  step : Ring → Ring × EnterResult

/-- A kernel model is well formed when an enter call never writes the
fields the kernel treats as read-only: the library's private state
(sqPending, closed), the producer-owned sqTail, the consumer-owned cqHead,
the geometry, and the SQE/index arrays. -/
def KernelOk (env : EnterModel) : Prop :=
  ∀ r : Ring,
    (env.step r).1.sqTail = r.sqTail ∧
    (env.step r).1.sqPending = r.sqPending ∧
    (env.step r).1.closed = r.closed ∧
    (env.step r).1.sqEntries = r.sqEntries ∧
    (env.step r).1.sqMask = r.sqMask ∧
    (env.step r).1.paramsFlags = r.paramsFlags ∧
    (env.step r).1.features = r.features ∧
    (env.step r).1.fd = r.fd ∧
    (env.step r).1.sqes = r.sqes ∧
    (env.step r).1.sqArray = r.sqArray ∧
    (env.step r).1.cqMask = r.cqMask ∧
    (env.step r).1.cqEntries = r.cqEntries ∧
    (env.step r).1.cqHead = r.cqHead

/-- A trivial kernel model: the enter call accepts everything, reports 0
completions-consumed submissions and changes no shared state. -/
def envNull : EnterModel := ⟨fun r => (r, .ok 0)⟩

/-- envNull is a well-formed kernel model. -/
theorem kernelOk_envNull : KernelOk envNull := by
  intro r
  refine ⟨rfl, rfl, rfl, rfl, rfl, rfl, rfl, rfl, rfl, rfl, rfl, rfl, rfl⟩

/-- The two consequences of kernel well-formedness used below, extracted
at a known enter-call result. -/
theorem kernelOk_fields {env : EnterModel} (hk : KernelOk env)
    {x r2 : Ring} {er : EnterResult} (heq : env.step x = (r2, er)) :
    r2.sqPending = x.sqPending ∧ r2.sqTail = x.sqTail := by
  have h := hk x
  rw [heq] at h
  exact ⟨h.2.1, h.1⟩

/-- Outcome of Submit / SubmitAndWait: the updated ring, the Go (int, error)
pair, and a record of the enter syscall that was (or was not) performed:
whether it ran, its flags word, its min-complete argument, and the
timeout carried by an extended argument (always none for plain Enter,
whose final parameter is only a signal mask). -/
structure SubmitOut where
  ring : Ring
  res : Nat
  err : Option Err
  enterCalled : Bool
  enterFlags : Nat
  enterMinComplete : Nat
  enterTimeout : Option Nat
  deriving DecidableEq, Repr

/-- needsWakeup: true only in kernel-polled mode when the kernel has set
the SQ-needs-wakeup bit in the shared SQ flags word. -/
def needsWakeup (r : Ring) : Bool :=
  if r.paramsFlags &&& IORING_SETUP_SQPOLL = 0 then false
  else r.sqFlags &&& IORING_SQ_NEED_WAKEUP != 0

/-- Submit (ring.go): fail when closed; return 0 when nothing is pending;
otherwise publish the pending entries by advancing the shared tail and
zeroing pending, then skip the syscall entirely in kernel-polled mode with
the wakeup bit clear (returning the published count), else perform enter
with the pending count and possibly the wakeup flag. -/
def Submit (r : Ring) (env : EnterModel) : SubmitOut :=
  if r.closed then ⟨r, 0, some .RingClosed, false, 0, 0, none⟩
  else
    let submitted := r.sqPending
    if submitted = 0 then ⟨r, 0, none, false, 0, 0, none⟩
    else
      let r1 := { r with sqTail := add32 r.sqTail submitted, sqPending := 0 }
      let flags := if needsWakeup r1 then IORING_ENTER_SQ_WAKEUP else 0
      if r1.paramsFlags &&& IORING_SETUP_SQPOLL ≠ 0 ∧ flags = 0 then
        ⟨r1, submitted, none, false, 0, 0, none⟩
      else
        match env.step r1 with
        | (r2, .ok n) => ⟨r2, n, none, true, flags, 0, none⟩
        | (r2, .fail e) => ⟨r2, 0, some (.errno e), true, flags, 0, none⟩

/-- SubmitAndWait (ring.go): fail when closed; publish pending entries if
any; always perform enter with the get-events flag (plus wakeup when
needed) and the requested minimum completion count. -/
def SubmitAndWait (r : Ring) (waitNr : Nat) (env : EnterModel) : SubmitOut :=
  if r.closed then ⟨r, 0, some .RingClosed, false, 0, 0, none⟩
  else
    let submitted := r.sqPending
    let r1 :=
      if 0 < submitted then
        { r with sqTail := add32 r.sqTail submitted, sqPending := 0 }
      else r
    let flags :=
      IORING_ENTER_GETEVENTS |||
        (if needsWakeup r1 then IORING_ENTER_SQ_WAKEUP else 0)
    match env.step r1 with
    | (r2, .ok n) => ⟨r2, n, none, true, flags, waitNr, none⟩
    | (r2, .fail e) => ⟨r2, 0, some (.errno e), true, flags, waitNr, none⟩

/-- PeekCQE (cqe.go): none when cq head equals cq tail, otherwise the
user token, result and flags of the entry at head & mask.  The head is not
advanced and the closed flag is not consulted. -/
def PeekCQE (r : Ring) : Option (Nat × Int × Nat) :=
  if r.cqHead = r.cqTail then none
  else
    let idx := r.cqHead &&& r.cqMask
    let c := r.cqes.getD idx ⟨0, 0, 0⟩
    some (c.userData, c.res, c.flags)

/-- SeenCQE advances the CQ head by one. -/
def SeenCQE (r : Ring) : Ring := { r with cqHead := add32 r.cqHead 1 }

/-- SeenCQEs advances the CQ head by n. -/
def SeenCQEs (r : Ring) (n : Nat) : Ring := { r with cqHead := add32 r.cqHead n }

/-- DrainCQEs advances the CQ head to the current tail and returns the
count drained; no closed-flag check. -/
def DrainCQEs (r : Ring) : Ring × Nat :=
  let count := sub32 r.cqTail r.cqHead
  (if 0 < count then { r with cqHead := r.cqTail } else r, count)

/-- Loop body of ForEachCQE: visit count entries from head onward, stopping
when the callback returns false; returns how many the callback accepted. -/
def forEachCount (cqes : List CQE) (mask : Nat) (f : Nat → Int → Nat → Bool) :
    Nat → Nat → Nat
  | _, 0 => 0
  | head, Nat.succ k =>
      let c := cqes.getD (head &&& mask) ⟨0, 0, 0⟩
      if f c.userData c.res c.flags then
        1 + forEachCount cqes mask f (add32 head 1) k
      else 0

/-- ForEachCQE (cqe.go): iterate the available entries in order, advance
the head by the number accepted; no closed-flag check. -/
def ForEachCQE (r : Ring) (f : Nat → Int → Nat → Bool) : Ring × Nat :=
  let n := sub32 r.cqTail r.cqHead
  let count := forEachCount r.cqes r.cqMask f r.cqHead n
  (if 0 < count then { r with cqHead := add32 r.cqHead count } else r, count)

/-- WaitCQE (cqe.go): fail when closed; peek; else submit-and-wait for one
completion and peek again; a kernel return with still no entry surfaces
EAGAIN. -/
def WaitCQE (r : Ring) (env : EnterModel) :
    Ring × Option (Nat × Int × Nat) × Option Err :=
  if r.closed then (r, none, some .RingClosed)
  else
    match PeekCQE r with
    | some c => (r, some c, none)
    | none =>
        let out := SubmitAndWait r 1 env
        match out.err with
        | some e => (out.ring, none, some e)
        | none =>
            match PeekCQE out.ring with
            | some c => (out.ring, some c, none)
            | none => (out.ring, none, some (.errno EAGAIN))

/-- Outcome of the timed-wait paths. -/
inductive PollOutcome where
  | cqe (c : Nat × Int × Nat)
  | err (e : Err)
  | fuelOut
  deriving DecidableEq, Repr

/-- waitCQETimeoutPoll (cqe.go), the degraded path used without the
extended-argument feature.  Each iteration: peek; report ETIME if the
remaining time is not positive; otherwise call SubmitAndWait(1) and
continue on success or EINTR, returning any other error.  The iteration
schedule supplies the value time.Until(deadline) reads at each pass; an
exhausted schedule ends the modelled run (fuelOut).  The source computes
a per-iteration sleep cap min(remaining, 10ms) here, but never uses it:
the SubmitAndWait(1) call carries no time bound. -/
def waitCQETimeoutPoll (env : EnterModel) :
    Ring → List Int → Ring × PollOutcome
  | r, [] => (r, .fuelOut)
  | r, remaining :: rest =>
      match PeekCQE r with
      | some c => (r, .cqe c)
      | none =>
          if remaining ≤ 0 then (r, .err (.errno ETIME))
          else
            let _sleepTime := min remaining 10000000
            let out := SubmitAndWait r 1 env
            match out.err with
            | none => waitCQETimeoutPoll env out.ring rest
            | some e =>
                if e = .errno EINTR then waitCQETimeoutPoll env out.ring rest
                else (out.ring, .err e)

/-- WaitCQETimeout (cqe.go): fail when closed; peek; without the EXT_ARG
feature degrade to the poll loop; with it, publish pending entries and
perform one extended enter carrying the timespec, then peek, reporting
ETIME when still empty.  The extended enter is abstracted by the
environment. -/
def WaitCQETimeout (env : EnterModel) (r : Ring) (fuel : List Int) :
    Ring × PollOutcome :=
  if r.closed then (r, .err .RingClosed)
  else
    match PeekCQE r with
    | some c => (r, .cqe c)
    | none =>
        if r.features &&& IORING_FEAT_EXT_ARG = 0 then
          waitCQETimeoutPoll env r fuel
        else
          let submitted := r.sqPending
          let r1 :=
            if 0 < submitted then
              { r with sqTail := add32 r.sqTail submitted, sqPending := 0 }
            else r
          match env.step r1 with
          | (r2, .fail e) => (r2, .err (.errno e))
          | (r2, .ok _) =>
              match PeekCQE r2 with
              | some c => (r2, .cqe c)
              | none => (r2, .err (.errno ETIME))

/-- Close (ring.go), state view: idempotently set the closed flag.  The
unmap/close side effects are modelled separately as an event trace. -/
def Close (r : Ring) : Ring × Option Err :=
  if r.closed then (r, none)
  else ({ r with closed := true }, none)

/-- RegisterFiles: reject an empty descriptor set with EINVAL locally,
otherwise forward to the register syscall; no closed-flag check. -/
def RegisterFiles (r : Ring) (fds : List Int) (reg : EnterResult) : Option Err :=
  if fds.length = 0 then some (.errno EINVAL)
  else match reg with
  | .ok _ => none
  | .fail e => some (.errno e)

/-- RegisterBuffers: reject an empty buffer set with EINVAL locally,
otherwise forward to the register syscall; no closed-flag check. -/
def RegisterBuffers (r : Ring) (bufs : List (Nat × Nat)) (reg : EnterResult) :
    Option Err :=
  if bufs.length = 0 then some (.errno EINVAL)
  else match reg with
  | .ok _ => none
  | .fail e => some (.errno e)

-- Memory-mapping event traces for mapRings and Close.

/-- The three mmapped regions of a ring. -/
inductive Region where
  | sqRing
  | cqRing
  | sqesMmap
  deriving DecidableEq, Repr

/-- Events on the mapped regions and the ring descriptor. -/
inductive MemEvent where
  | mmap (reg : Region)
  | munmap (reg : Region)
  | closeFd
  deriving DecidableEq, Repr

/-- Successful mapRings (ring.go) in event order: map the SQ ring, map the
CQ ring only when the single-mmap feature is absent (otherwise the CQ view
aliases the SQ mapping), then map the SQE array. -/
def mapRingsTrace (features : Nat) : List MemEvent :=
  if features &&& IORING_FEAT_SINGLE_MMAP ≠ 0 then
    [.mmap .sqRing, .mmap .sqesMmap]
  else
    [.mmap .sqRing, .mmap .cqRing, .mmap .sqesMmap]

/-- Close (ring.go) on a fully mapped ring, in event order: unmap the CQ
ring when it is separate, then the SQ ring, then the SQE array, then close
the descriptor. -/
def closeTrace (features : Nat) : List MemEvent :=
  (if features &&& IORING_FEAT_SINGLE_MMAP = 0 then [.munmap .cqRing] else [])
    ++ [.munmap .sqRing, .munmap .sqesMmap, .closeFd]

/-- The regions of a trace in mapping order. -/
def mappedOrder (features : Nat) : List Region :=
  (mapRingsTrace features).filterMap fun e =>
    match e with
    | .mmap g => some g
    | _ => none

/-- The regions of a trace in unmapping order. -/
def unmappedOrder (features : Nat) : List Region :=
  (closeTrace features).filterMap fun e =>
    match e with
    | .munmap g => some g
    | _ => none

-- Setup options (ring.go Option values over sys.Params).

/-- The setup-parameter fields the configuration options touch. -/
structure Params where
  flags : Nat
  sqThreadCPU : Nat
  sqThreadIdle : Nat
  cqEntries : Nat
  deriving DecidableEq, Repr

/-- The zero parameter block New starts from. -/
def paramsZero : Params := ⟨0, 0, 0, 0⟩

/-- WithSQPoll ORs the kernel-polled-submission setup flag. -/
def WithSQPoll (p : Params) : Params :=
  { p with flags := p.flags ||| IORING_SETUP_SQPOLL }

/-- WithSQPollCPU ORs the SQ-affinity setup flag and records the CPU. -/
def WithSQPollCPU (cpu : Nat) (p : Params) : Params :=
  { p with flags := p.flags ||| IORING_SETUP_SQ_AFF, sqThreadCPU := cpu }

/-- New folds the option list over the zero parameter block. -/
def applyOpts (opts : List (Params → Params)) : Params :=
  opts.foldl (fun p o => o p) paramsZero

-- Derived machinery for the stated properties.

/-- n successive PrepNop reservations (user tokens are the countdown
counter; the token value is irrelevant to queue accounting). -/
def prepNopN : Nat → Ring → Ring × Option Err
  | 0, r => (r, none)
  | Nat.succ n, r =>
      match PrepNop r n with
      | (r1, none) => prepNopN n r1
      | (r1, some e) => (r1, some e)

/-- Equality of every ring field except the reservation-owned trio
(sqPending, sqes, sqArray): in particular the shared submission tail and
head, the shared SQ flags word, the CQ state, the geometry and the closed
flag. -/
structure SQFrameEq (a b : Ring) : Prop where
  fd_eq : a.fd = b.fd
  paramsFlags_eq : a.paramsFlags = b.paramsFlags
  features_eq : a.features = b.features
  sqEntries_eq : a.sqEntries = b.sqEntries
  sqMask_eq : a.sqMask = b.sqMask
  sqHead_eq : a.sqHead = b.sqHead
  sqTail_eq : a.sqTail = b.sqTail
  sqFlags_eq : a.sqFlags = b.sqFlags
  cqEntries_eq : a.cqEntries = b.cqEntries
  cqMask_eq : a.cqMask = b.cqMask
  cqHead_eq : a.cqHead = b.cqHead
  cqTail_eq : a.cqTail = b.cqTail
  cqes_eq : a.cqes = b.cqes
  closed_eq : a.closed = b.closed

/-- One reservation call: a raw GetSQE or any of the modelled Prep
builders, with its arguments. -/
inductive PrepCall where
  | raw
  | nop (ud : Nat)
  | read (fd : Int) (bufAddr bufLen offset ud : Nat)
  | write (fd : Int) (bufAddr bufLen offset ud : Nat)
  | readFixed (fd : Int) (bufAddr bufLen offset bufIndex ud : Nat)
  | writeFixed (fd : Int) (bufAddr bufLen offset bufIndex ud : Nat)
  | readv (fd : Int) (iovAddr iovCount offset ud : Nat)
  | writev (fd : Int) (iovAddr iovCount offset ud : Nat)
  | send (fd : Int) (bufAddr bufLen sendFlags ud : Nat)
  | recv (fd : Int) (bufAddr bufLen recvFlags ud : Nat)
  | setFlags (flags : Nat)
  deriving DecidableEq, Repr

/-- Dispatch one reservation call to the corresponding library function. -/
def runPrep : PrepCall → Ring → Ring × Option Err
  | .raw, r => ((getSQE r).1, none)
  | .nop ud, r => PrepNop r ud
  | .read fd a l o ud, r => PrepRead r fd a l o ud
  | .write fd a l o ud, r => PrepWrite r fd a l o ud
  | .readFixed fd a l o bi ud, r => PrepReadFixed r fd a l o bi ud
  | .writeFixed fd a l o bi ud, r => PrepWriteFixed r fd a l o bi ud
  | .readv fd a n o ud, r => PrepReadv r fd a n o ud
  | .writev fd a n o ud, r => PrepWritev r fd a n o ud
  | .send fd a l fl ud, r => PrepSend r fd a l fl ud
  | .recv fd a l fl ud, r => PrepRecv r fd a l fl ud
  | .setFlags fl, r => (SetSQEFlags r fl, none)

/-- Run a sequence of reservation calls, threading the ring state. -/
def runPreps : List PrepCall → Ring → Ring
  | [], r => r
  | c :: cs, r => runPreps cs (runPrep c r).1

-- Concrete states used by the refutations and witnesses.

/-- A kernel-polled ring (SQPOLL set), wakeup bit clear, with two entries
reserved and not yet published. -/
def sqpollRing : Ring :=
  { freshRing 4 with paramsFlags := IORING_SETUP_SQPOLL, sqPending := 2 }

/-- A CQE array with one nonzero completion at slot 0. -/
def oneCqes : List CQE := List.set (List.replicate 8 ⟨0, 0, 0⟩) 0 ⟨42, 7, 0⟩

/-- A closed ring that still has one unconsumed CQE and free SQ slots. -/
def closedRing : Ring :=
  { freshRing 4 with closed := true, cqTail := 1, cqes := oneCqes }

/-- Reserve one NOP on a fresh ring, then Close it: reaches a closed ring
whose pending counter is still 1. -/
def closedPendingRing : Ring := (Close (PrepNop (freshRing 4) 7).1).1

-- Shared helper lemmas.

/-- getSQE never reads the closed flag: running it with the flag forced to
any value gives the same reservation result and the same state up to that
flag. -/
theorem getSQE_closed_independent (r : Ring) (b : Bool) :
    getSQE { r with closed := b } =
      ({ (getSQE r).1 with closed := b }, (getSQE r).2) := by
  unfold getSQE
  by_cases h : r.sqEntries ≤ sub32 (add32 r.sqTail r.sqPending) r.sqHead
  · simp [h]
  · simp [h]

-- Claim C5: the order in which Close unmaps the regions.

/-- C5, counterexample: on a ring whose completion ring is mapped
separately (single-mmap feature absent, features = 0), mapRings maps
submission ring, completion ring, then SQE array, but Close unmaps the
completion ring first, then the submission ring, then the SQE array:
that is not the reverse of the mapping order (the reverse would unmap the
SQE array first).  The claim also fails in the single-mmap case. -/
theorem close_unmap_not_reverse_of_map :
    mappedOrder 0 = [Region.sqRing, Region.cqRing, Region.sqesMmap] ∧
    unmappedOrder 0 = [Region.cqRing, Region.sqRing, Region.sqesMmap] ∧
    unmappedOrder 0 ≠ (mappedOrder 0).reverse ∧
    unmappedOrder IORING_FEAT_SINGLE_MMAP ≠
      (mappedOrder IORING_FEAT_SINGLE_MMAP).reverse := by
  decide

/-- C5, amended: for every feature word, Close unmaps exactly the regions
mapRings mapped (each once), in the fixed order completion ring first when
it is separate, then submission ring, then SQE array — not the reverse of
the mapping order — and closes the ring descriptor as its last action. -/
theorem close_unmap_order (f : Nat) :
    (mappedOrder f).Perm (unmappedOrder f) ∧
    unmappedOrder f =
      (if f &&& IORING_FEAT_SINGLE_MMAP = 0 then [Region.cqRing] else []) ++
        [Region.sqRing, Region.sqesMmap] ∧
    (closeTrace f).getLast? = some MemEvent.closeFd := by
  by_cases h : f &&& IORING_FEAT_SINGLE_MMAP = 0
  · have hm : mapRingsTrace f =
        [.mmap .sqRing, .mmap .cqRing, .mmap .sqesMmap] := by
      unfold mapRingsTrace
      rw [if_neg (by simpa using h)]
    have hc : closeTrace f =
        [.munmap .cqRing, .munmap .sqRing, .munmap .sqesMmap, .closeFd] := by
      unfold closeTrace
      rw [if_pos h]
      rfl
    unfold mappedOrder unmappedOrder
    rw [hm, hc, if_pos h]
    decide
  · have hm : mapRingsTrace f = [.mmap .sqRing, .mmap .sqesMmap] := by
      unfold mapRingsTrace
      rw [if_pos h]
    have hc : closeTrace f =
        [.munmap .sqRing, .munmap .sqesMmap, .closeFd] := by
      unfold closeTrace
      rw [if_neg h]
      rfl
    unfold mappedOrder unmappedOrder
    rw [hm, hc, if_neg h]
    decide

-- Claim C6: the WithSQPollCPU option.

/-- C6, counterexample: applying only WithSQPollCPU(3) to the zero
parameter block (as New does) records the CPU and sets the SQ-affinity
setup flag, but leaves the SQPOLL setup flag clear: the option does not
force kernel-polled submission mode. -/
theorem withSQPollCPU_no_sqpoll_flag :
    (applyOpts [WithSQPollCPU 3]).sqThreadCPU = 3 ∧
    (applyOpts [WithSQPollCPU 3]).flags &&& IORING_SETUP_SQ_AFF ≠ 0 ∧
    (applyOpts [WithSQPollCPU 3]).flags &&& IORING_SETUP_SQPOLL = 0 := by
  decide

/-- C6, amended: WithSQPollCPU sets the CPU index and ORs in only the
SQ-affinity setup flag; the SQPOLL bit (bit 1 of the flags word) is left
exactly as it was, so kernel-polled mode is not forced and the option must
be combined with WithSQPoll (as its doc comment says). -/
theorem withSQPollCPU_sets_aff_only (cpu : Nat) (p : Params) :
    (WithSQPollCPU cpu p).sqThreadCPU = cpu ∧
    (WithSQPollCPU cpu p).flags = p.flags ||| IORING_SETUP_SQ_AFF ∧
    ((WithSQPollCPU cpu p).flags).testBit 1 = p.flags.testBit 1 := by
  refine ⟨rfl, rfl, ?_⟩
  have h4 : (IORING_SETUP_SQ_AFF).testBit 1 = false := by decide
  show (p.flags ||| IORING_SETUP_SQ_AFF).testBit 1 = p.flags.testBit 1
  rw [Nat.testBit_lor, h4, Bool.or_false]

-- Claim C7: empty buffers are a successful no-op for the I/O builders.

/-- C7: each I/O Prep builder called with a zero-length buffer or an empty
iovec slice returns success immediately and returns the ring state
entirely unchanged — no entry is consumed and the pending counter is
untouched. -/
theorem prep_empty_buffer_noop (r : Ring) (fd : Int)
    (bufAddr offset bufIndex sendFlags recvFlags iovAddr ud : Nat) :
    PrepRead r fd bufAddr 0 offset ud = (r, none) ∧
    PrepWrite r fd bufAddr 0 offset ud = (r, none) ∧
    PrepReadFixed r fd bufAddr 0 offset bufIndex ud = (r, none) ∧
    PrepWriteFixed r fd bufAddr 0 offset bufIndex ud = (r, none) ∧
    PrepReadv r fd iovAddr 0 offset ud = (r, none) ∧
    PrepWritev r fd iovAddr 0 offset ud = (r, none) ∧
    PrepSend r fd bufAddr 0 sendFlags ud = (r, none) ∧
    PrepRecv r fd bufAddr 0 recvFlags ud = (r, none) := by
  refine ⟨?_, ?_, ?_, ?_, ?_, ?_, ?_, ?_⟩ <;> rfl

-- Claim C10: SetSQEFlags with nothing pending.

/-- C10: on a ring with a zero pending counter, SetSQEFlags (and hence
SetSQELink and SetSQEAsync) returns the ring completely unchanged: no
submission entry, index array slot, tail, or counter is modified. -/
theorem setSQEFlags_noop_when_no_pending (r : Ring) (fl : Nat)
    (h : r.sqPending = 0) :
    SetSQEFlags r fl = r ∧ SetSQELink r = r ∧ SetSQEAsync r = r := by
  simp [SetSQEFlags, SetSQELink, SetSQEAsync, h]

/-- Instance of setSQEFlags_noop_when_no_pending on a fresh ring of
capacity 4 with flag bits 9. -/
theorem setSQEFlags_noop_when_no_pending_inst :
    (freshRing 4).sqPending = 0 ∧
    (SetSQEFlags (freshRing 4) 9 = freshRing 4 ∧
      SetSQELink (freshRing 4) = freshRing 4 ∧
      SetSQEAsync (freshRing 4) = freshRing 4) :=
  ⟨rfl, setSQEFlags_noop_when_no_pending (freshRing 4) 9 rfl⟩

-- Claim C1: Submit in kernel-polled mode with the wakeup bit clear.

/-- C1, counterexample: on a kernel-polled ring with the wakeup bit clear
and two pending entries, Submit publishes the entries and makes no enter
syscall, but it returns the published count 2 — not 0 as claimed. -/
theorem submit_sqpoll_elide_returns_count :
    sqpollRing.sqPending = 2 ∧
    (Submit sqpollRing envNull).enterCalled = false ∧
    (Submit sqpollRing envNull).ring.sqTail = 2 ∧
    (Submit sqpollRing envNull).res = 2 ∧
    (Submit sqpollRing envNull).res ≠ 0 := by
  decide

/-- C1, amended: on an open kernel-polled ring whose SQ-needs-wakeup bit
is clear, a Submit with pending entries publishes them (tail advances by
the pending count, pending drops to zero), performs no enter syscall, and
returns the count of entries it published, with no error. -/
theorem submit_sqpoll_no_wakeup_elides_syscall (r : Ring) (env : EnterModel)
    (hc : r.closed = false)
    (hsq : r.paramsFlags &&& IORING_SETUP_SQPOLL ≠ 0)
    (hw : r.sqFlags &&& IORING_SQ_NEED_WAKEUP = 0)
    (hp : 0 < r.sqPending) :
    (Submit r env).enterCalled = false ∧
    (Submit r env).res = r.sqPending ∧
    (Submit r env).err = none ∧
    (Submit r env).ring.sqTail = add32 r.sqTail r.sqPending ∧
    (Submit r env).ring.sqPending = 0 := by
  have hs0 : ¬ r.sqPending = 0 := by omega
  have hnw :
      needsWakeup
        { r with sqTail := add32 r.sqTail r.sqPending, sqPending := 0,
                 closed := false } = false := by
    simp [needsWakeup, hsq, hw]
  simp [Submit, hc, hs0, hnw, hsq]

/-- Instance of submit_sqpoll_no_wakeup_elides_syscall on sqpollRing. -/
theorem submit_sqpoll_no_wakeup_elides_syscall_inst :
    sqpollRing.closed = false ∧
    sqpollRing.paramsFlags &&& IORING_SETUP_SQPOLL ≠ 0 ∧
    sqpollRing.sqFlags &&& IORING_SQ_NEED_WAKEUP = 0 ∧
    0 < sqpollRing.sqPending ∧
    ((Submit sqpollRing envNull).enterCalled = false ∧
      (Submit sqpollRing envNull).res = sqpollRing.sqPending ∧
      (Submit sqpollRing envNull).err = none ∧
      (Submit sqpollRing envNull).ring.sqTail =
        add32 sqpollRing.sqTail sqpollRing.sqPending ∧
      (Submit sqpollRing envNull).ring.sqPending = 0) :=
  ⟨rfl, by decide, by decide, by decide,
    submit_sqpoll_no_wakeup_elides_syscall sqpollRing envNull rfl
      (by decide) (by decide) (by decide)⟩

-- Claim C2: behavior of the public operations after Close.

/-- C2, counterexample: closedRing has its closed flag set, yet PeekCQE
returns the contents of the mapped CQE array rather than failing with
RingClosed, PrepNop succeeds and consumes an entry (pending becomes 1),
GetSQE reserves a slot, DrainCQEs consumes the available completion, a
callback iteration visits it, and RegisterFiles reaches the register
syscall and reports its success — none of these checks the closed flag. -/
theorem closed_ring_ops_do_not_all_fail :
    closedRing.closed = true ∧
    PeekCQE closedRing = some (42, 7, 0) ∧
    (PrepNop closedRing 5).2 = none ∧
    (PrepNop closedRing 5).1.sqPending = 1 ∧
    (getSQE closedRing).2 = some 0 ∧
    (DrainCQEs closedRing).2 = 1 ∧
    (ForEachCQE closedRing (fun _ _ _ => true)).2 = 1 ∧
    RegisterFiles closedRing [3] (.ok 0) = none := by
  decide

/-- C2, amended: after Close only the operations that consult the closed
flag — Submit, SubmitAndWait, WaitCQE and WaitCQETimeout — fail with
RingClosed (leaving the ring untouched and making no enter syscall), and
Close itself is an idempotent no-op; PeekCQE, getSQE (hence GetSQE and
the Prep builders), DrainCQEs and the registration calls ignore the
closed flag entirely and behave exactly as on an open ring. -/
theorem closed_flag_checked_ops (r : Ring) (env : EnterModel) (n : Nat)
    (fuel : List Int) (fds : List Int) (reg : EnterResult)
    (h : r.closed = true) :
    Submit r env = ⟨r, 0, some .RingClosed, false, 0, 0, none⟩ ∧
    SubmitAndWait r n env = ⟨r, 0, some .RingClosed, false, 0, 0, none⟩ ∧
    WaitCQE r env = (r, none, some .RingClosed) ∧
    WaitCQETimeout env r fuel = (r, .err .RingClosed) ∧
    Close r = (r, none) ∧
    PeekCQE r = PeekCQE { r with closed := false } ∧
    getSQE { r with closed := false } =
      ({ (getSQE r).1 with closed := false }, (getSQE r).2) ∧
    (DrainCQEs r).2 = (DrainCQEs { r with closed := false }).2 ∧
    RegisterFiles r fds reg = RegisterFiles { r with closed := false } fds reg := by
  refine ⟨?_, ?_, ?_, ?_, ?_, rfl, getSQE_closed_independent r false, rfl, rfl⟩
  · simp [Submit, h]
  · simp [SubmitAndWait, h]
  · simp [WaitCQE, h]
  · simp [WaitCQETimeout, h]
  · simp [Close, h]

/-- Instance of closed_flag_checked_ops on closedRing. -/
theorem closed_flag_checked_ops_inst :
    closedRing.closed = true ∧
    (Submit closedRing envNull =
        ⟨closedRing, 0, some .RingClosed, false, 0, 0, none⟩ ∧
      SubmitAndWait closedRing 1 envNull =
        ⟨closedRing, 0, some .RingClosed, false, 0, 0, none⟩ ∧
      WaitCQE closedRing envNull = (closedRing, none, some .RingClosed) ∧
      WaitCQETimeout envNull closedRing [5] = (closedRing, .err .RingClosed) ∧
      Close closedRing = (closedRing, none) ∧
      PeekCQE closedRing = PeekCQE { closedRing with closed := false } ∧
      getSQE { closedRing with closed := false } =
        ({ (getSQE closedRing).1 with closed := false },
          (getSQE closedRing).2) ∧
      (DrainCQEs closedRing).2 = (DrainCQEs { closedRing with closed := false }).2 ∧
      RegisterFiles closedRing [3] (.ok 0) =
        RegisterFiles { closedRing with closed := false } [3] (.ok 0)) :=
  ⟨rfl, closed_flag_checked_ops closedRing envNull 1 [5] [3] (.ok 0) rfl⟩

-- Claim C4: pending counter and published tail after Submit returns.

/-- C4, counterexample: closedPendingRing is reached through the public
API (PrepNop, then Close); Submit on it returns the RingClosed error
immediately, and the pending counter is still 1 after Submit returns —
not 0 as the unconditional claim requires. -/
theorem submit_closed_ring_keeps_pending :
    closedPendingRing.closed = true ∧
    closedPendingRing.sqPending = 1 ∧
    (Submit closedPendingRing envNull).ring.sqPending = 1 ∧
    (Submit closedPendingRing envNull).ring.sqPending ≠ 0 ∧
    (Submit closedPendingRing envNull).err = some .RingClosed := by
  decide

/-- C4, amended: on a ring that is not closed, after Submit returns —
whether the enter syscall succeeded, failed, or was not made — the
pending counter is zero and the published submission tail equals the
prior tail plus the count of entries pending at the start of the call
(for any well-formed kernel, which never writes the producer-owned
tail or the library's pending counter). -/
theorem submit_resets_pending_and_publishes_tail (r : Ring) (env : EnterModel)
    (hk : KernelOk env) (hc : r.closed = false) (ht : r.sqTail < U32) :
    (Submit r env).ring.sqPending = 0 ∧
    (Submit r env).ring.sqTail = add32 r.sqTail r.sqPending := by
  by_cases hs : r.sqPending = 0
  · simp [Submit, hc, hs, add32, Nat.mod_eq_of_lt ht]
  · simp only [Submit, hc, Bool.false_eq_true, if_false, hs]
    split
    · rw [if_neg fun hh => absurd hh.2 (by decide)]
      split
      · next heq =>
          obtain ⟨hp2, ht2⟩ := kernelOk_fields hk heq
          exact ⟨by rw [hp2], by rw [ht2]⟩
      · next heq =>
          obtain ⟨hp2, ht2⟩ := kernelOk_fields hk heq
          exact ⟨by rw [hp2], by rw [ht2]⟩
    · split
      · exact ⟨rfl, rfl⟩
      · split
        · next heq =>
            obtain ⟨hp2, ht2⟩ := kernelOk_fields hk heq
            exact ⟨by rw [hp2], by rw [ht2]⟩
        · next heq =>
            obtain ⟨hp2, ht2⟩ := kernelOk_fields hk heq
            exact ⟨by rw [hp2], by rw [ht2]⟩

/-- Instance of submit_resets_pending_and_publishes_tail: a fresh ring
with one reserved NOP, trivial kernel. -/
theorem submit_resets_pending_and_publishes_tail_inst :
    KernelOk envNull ∧
    (PrepNop (freshRing 4) 7).1.closed = false ∧
    (PrepNop (freshRing 4) 7).1.sqTail < U32 ∧
    ((Submit (PrepNop (freshRing 4) 7).1 envNull).ring.sqPending = 0 ∧
      (Submit (PrepNop (freshRing 4) 7).1 envNull).ring.sqTail =
        add32 (PrepNop (freshRing 4) 7).1.sqTail
          (PrepNop (freshRing 4) 7).1.sqPending) :=
  ⟨kernelOk_envNull, by decide, by decide,
    submit_resets_pending_and_publishes_tail (PrepNop (freshRing 4) 7).1 envNull
      kernelOk_envNull (by decide) (by decide)⟩

-- Claim C9: reservations never move the kernel-visible tail.

/-- SQFrameEq is reflexive. -/
theorem sqFrameEq_refl (r : Ring) : SQFrameEq r r :=
  ⟨rfl, rfl, rfl, rfl, rfl, rfl, rfl, rfl, rfl, rfl, rfl, rfl, rfl, rfl⟩

/-- SQFrameEq is transitive. -/
theorem sqFrameEq_trans {a b c : Ring} (h1 : SQFrameEq a b) (h2 : SQFrameEq b c) :
    SQFrameEq a c :=
  ⟨h1.fd_eq.trans h2.fd_eq, h1.paramsFlags_eq.trans h2.paramsFlags_eq,
    h1.features_eq.trans h2.features_eq, h1.sqEntries_eq.trans h2.sqEntries_eq,
    h1.sqMask_eq.trans h2.sqMask_eq, h1.sqHead_eq.trans h2.sqHead_eq,
    h1.sqTail_eq.trans h2.sqTail_eq, h1.sqFlags_eq.trans h2.sqFlags_eq,
    h1.cqEntries_eq.trans h2.cqEntries_eq, h1.cqMask_eq.trans h2.cqMask_eq,
    h1.cqHead_eq.trans h2.cqHead_eq, h1.cqTail_eq.trans h2.cqTail_eq,
    h1.cqes_eq.trans h2.cqes_eq, h1.closed_eq.trans h2.closed_eq⟩

/-- A getSQE reservation (successful or not) touches only the pending
counter, the SQE array, and the index array. -/
theorem getSQE_frame (r : Ring) : SQFrameEq (getSQE r).1 r := by
  simp only [getSQE]
  split
  · exact sqFrameEq_refl r
  · exact ⟨rfl, rfl, rfl, rfl, rfl, rfl, rfl, rfl, rfl, rfl, rfl, rfl, rfl, rfl⟩

/-- Writing one SQE touches only the SQE array. -/
theorem setSQE_frame (r : Ring) (idx : Nat) (s : SQE) :
    SQFrameEq (setSQE r idx s) r :=
  ⟨rfl, rfl, rfl, rfl, rfl, rfl, rfl, rfl, rfl, rfl, rfl, rfl, rfl, rfl⟩

/-- Any single reservation call — GetSQE or any modelled Prep builder or
SetSQEFlags — leaves every field outside (sqPending, sqes, sqArray)
unchanged, whether it succeeds or reports a full queue. -/
theorem runPrep_frame (c : PrepCall) (r : Ring) :
    SQFrameEq (runPrep c r).1 r := by
  cases c with
  | raw => exact getSQE_frame r
  | setFlags fl =>
      simp only [runPrep, SetSQEFlags]
      split
      · exact setSQE_frame r _ _
      · exact sqFrameEq_refl r
  | nop ud =>
      simp only [runPrep]
      unfold PrepNop
      rcases hg : getSQE r with ⟨r1, o1⟩
      have hf := getSQE_frame r
      rw [hg] at hf
      cases o1
      · exact hf
      · exact sqFrameEq_trans (setSQE_frame r1 _ _) hf
  | read fd a l o ud =>
      simp only [runPrep]
      unfold PrepRead
      split
      · exact sqFrameEq_refl r
      · rcases hg : getSQE r with ⟨r1, o1⟩
        have hf := getSQE_frame r
        rw [hg] at hf
        cases o1
        · exact hf
        · exact sqFrameEq_trans (setSQE_frame r1 _ _) hf
  | write fd a l o ud =>
      simp only [runPrep]
      unfold PrepWrite
      split
      · exact sqFrameEq_refl r
      · rcases hg : getSQE r with ⟨r1, o1⟩
        have hf := getSQE_frame r
        rw [hg] at hf
        cases o1
        · exact hf
        · exact sqFrameEq_trans (setSQE_frame r1 _ _) hf
  | readFixed fd a l o bi ud =>
      simp only [runPrep]
      unfold PrepReadFixed
      split
      · exact sqFrameEq_refl r
      · rcases hg : getSQE r with ⟨r1, o1⟩
        have hf := getSQE_frame r
        rw [hg] at hf
        cases o1
        · exact hf
        · exact sqFrameEq_trans (setSQE_frame r1 _ _) hf
  | writeFixed fd a l o bi ud =>
      simp only [runPrep]
      unfold PrepWriteFixed
      split
      · exact sqFrameEq_refl r
      · rcases hg : getSQE r with ⟨r1, o1⟩
        have hf := getSQE_frame r
        rw [hg] at hf
        cases o1
        · exact hf
        · exact sqFrameEq_trans (setSQE_frame r1 _ _) hf
  | readv fd a n o ud =>
      simp only [runPrep]
      unfold PrepReadv
      split
      · exact sqFrameEq_refl r
      · rcases hg : getSQE r with ⟨r1, o1⟩
        have hf := getSQE_frame r
        rw [hg] at hf
        cases o1
        · exact hf
        · exact sqFrameEq_trans (setSQE_frame r1 _ _) hf
  | writev fd a n o ud =>
      simp only [runPrep]
      unfold PrepWritev
      split
      · exact sqFrameEq_refl r
      · rcases hg : getSQE r with ⟨r1, o1⟩
        have hf := getSQE_frame r
        rw [hg] at hf
        cases o1
        · exact hf
        · exact sqFrameEq_trans (setSQE_frame r1 _ _) hf
  | send fd a l fl ud =>
      simp only [runPrep]
      unfold PrepSend
      split
      · exact sqFrameEq_refl r
      · rcases hg : getSQE r with ⟨r1, o1⟩
        have hf := getSQE_frame r
        rw [hg] at hf
        cases o1
        · exact hf
        · exact sqFrameEq_trans (setSQE_frame r1 _ _) hf
  | recv fd a l fl ud =>
      simp only [runPrep]
      unfold PrepRecv
      split
      · exact sqFrameEq_refl r
      · rcases hg : getSQE r with ⟨r1, o1⟩
        have hf := getSQE_frame r
        rw [hg] at hf
        cases o1
        · exact hf
        · exact sqFrameEq_trans (setSQE_frame r1 _ _) hf

/-- C9: any sequence of reservation calls (getSQE / Prep builders /
SetSQEFlags) with no intervening Submit leaves the submission tail stored
in the shared ring — the value the kernel observes — unchanged, along
with the head, the shared flags word, the CQ state, the geometry and the
closed flag; only the pending counter, the SQE array and the index array
may differ. -/
theorem reservations_preserve_shared_tail (cs : List PrepCall) (r : Ring) :
    SQFrameEq (runPreps cs r) r := by
  induction cs generalizing r with
  | nil => exact sqFrameEq_refl r
  | cons c cs ih =>
      exact sqFrameEq_trans (ih (runPrep c r).1) (runPrep_frame c r)

-- Claim C8: the degraded timed-wait poll loop.

/-- C8: the blocking wait inside the degraded poll loop is NOT bounded by
the computed per-iteration sleep cap.  An iteration of the loop behaves
identically for any positive remaining time — the cap min(remaining,
10ms) is computed but never reaches the syscall — and the wait the loop
performs, SubmitAndWait(1), is a plain enter that carries no timeout
argument at all; so with an empty completion queue and no arriving
completion the loop blocks indefinitely instead of sleeping at most the
cap and then reporting TimeExpired.  The remaining parts of the claim do
hold: once the remaining time is non-positive the loop reports ETIME, and
an EINTR from the wait continues the loop. -/
theorem waitPoll_blocking_wait_unbounded (env : EnterModel) (r : Ring)
    (rest : List Int) (rem1 rem2 rem0 : Int)
    (h1 : 0 < rem1) (h2 : 0 < rem2) (h0 : rem0 ≤ 0) :
    waitCQETimeoutPoll env r (rem1 :: rest) =
      waitCQETimeoutPoll env r (rem2 :: rest) ∧
    (SubmitAndWait r 1 env).enterTimeout = none ∧
    (PeekCQE r = none →
      waitCQETimeoutPoll env r (rem0 :: rest) = (r, .err (.errno ETIME))) ∧
    (PeekCQE r = none → 0 < rem1 →
      (SubmitAndWait r 1 env).err = some (.errno EINTR) →
      waitCQETimeoutPoll env r (rem1 :: rest) =
        waitCQETimeoutPoll env (SubmitAndWait r 1 env).ring rest) := by
  refine ⟨?_, ?_, ?_, ?_⟩
  · cases hp : PeekCQE r with
    | some c => simp only [waitCQETimeoutPoll, hp]
    | none =>
        simp only [waitCQETimeoutPoll, hp]
        rw [if_neg (not_le.mpr h1), if_neg (not_le.mpr h2)]
  · simp only [SubmitAndWait]
    split
    · rfl
    · split <;> rfl
  · intro hp
    simp only [waitCQETimeoutPoll, hp]
    rw [if_pos h0]
  · intro hp _ herr
    simp only [waitCQETimeoutPoll, hp]
    rw [if_neg (not_le.mpr h1), herr]
    simp

/-- Instance of waitPoll_blocking_wait_unbounded: trivial kernel, fresh
ring, remaining times 1 and 5 nanoseconds, expired time 0. -/
theorem waitPoll_blocking_wait_unbounded_inst :
    (0 : Int) < 1 ∧ (0 : Int) < 5 ∧ (0 : Int) ≤ 0 ∧
    (waitCQETimeoutPoll envNull (freshRing 4) [1] =
        waitCQETimeoutPoll envNull (freshRing 4) [5] ∧
      (SubmitAndWait (freshRing 4) 1 envNull).enterTimeout = none ∧
      (PeekCQE (freshRing 4) = none →
        waitCQETimeoutPoll envNull (freshRing 4) [0] =
          (freshRing 4, .err (.errno ETIME))) ∧
      (PeekCQE (freshRing 4) = none → (0 : Int) < 1 →
        (SubmitAndWait (freshRing 4) 1 envNull).err = some (.errno EINTR) →
        waitCQETimeoutPoll envNull (freshRing 4) [1] =
          waitCQETimeoutPoll envNull
            (SubmitAndWait (freshRing 4) 1 envNull).ring [])) :=
  ⟨by decide, by decide, by decide,
    waitPoll_blocking_wait_unbounded envNull (freshRing 4) [] 1 5 0
      (by decide) (by decide) (by decide)⟩

-- Claim C3: reserving up to capacity succeeds, one more is QueueFull.

/-- On a ring with zero head and tail whose pending count is below
capacity (capacity below 2^32), PrepNop succeeds and increments pending
by exactly one, preserving head, tail and capacity. -/
theorem prepNop_succeeds (r : Ring) (u : Nat) (hh : r.sqHead = 0)
    (ht : r.sqTail = 0) (hp : r.sqPending < r.sqEntries)
    (hU : r.sqEntries < U32) :
    (PrepNop r u).2 = none ∧ (PrepNop r u).1.sqHead = 0 ∧
    (PrepNop r u).1.sqTail = 0 ∧
    (PrepNop r u).1.sqPending = r.sqPending + 1 ∧
    (PrepNop r u).1.sqEntries = r.sqEntries := by
  have hp32 : r.sqPending < U32 := lt_trans hp hU
  have hp132 : r.sqPending + 1 < U32 := by omega
  have htail : add32 0 r.sqPending = r.sqPending := by
    unfold add32
    rw [Nat.zero_add]
    exact Nat.mod_eq_of_lt hp32
  have hsub : sub32 (add32 0 r.sqPending) 0 = r.sqPending := by
    rw [htail]
    unfold sub32
    rw [Nat.zero_mod, Nat.sub_zero, Nat.mod_eq_of_lt hp32, Nat.add_mod_right]
    exact Nat.mod_eq_of_lt hp32
  have hnot : ¬ r.sqEntries ≤ sub32 (add32 0 r.sqPending) 0 := by
    rw [hsub]
    omega
  have hpinc : add32 r.sqPending 1 = r.sqPending + 1 := by
    unfold add32
    exact Nat.mod_eq_of_lt hp132
  simp [PrepNop, getSQE, hh, ht, hnot, setSQE, sqeAt, hpinc]

/-- Iterating PrepNop n times from a ring with zero head and tail
succeeds and raises pending by n, as long as pending plus n stays within
capacity. -/
theorem prepNopN_succeeds (C : Nat) (hU : C < U32) :
    ∀ n r, r.sqHead = 0 → r.sqTail = 0 → r.sqEntries = C →
      r.sqPending + n ≤ C →
      (prepNopN n r).2 = none ∧ (prepNopN n r).1.sqHead = 0 ∧
      (prepNopN n r).1.sqTail = 0 ∧ (prepNopN n r).1.sqEntries = C ∧
      (prepNopN n r).1.sqPending = r.sqPending + n := by
  intro n
  induction n with
  | zero =>
      intro r hh ht hE hle
      exact ⟨rfl, hh, ht, hE, rfl⟩
  | succ n ih =>
      intro r hh ht hE hle
      have hp : r.sqPending < r.sqEntries := by omega
      have hs := prepNop_succeeds r n hh ht hp (by rw [hE]; exact hU)
      rcases hP : PrepNop r n with ⟨r1, o⟩
      rw [hP] at hs
      obtain ⟨ho, h1, h2, h3, h4⟩ := hs
      cases ho
      simp only [prepNopN, hP]
      obtain ⟨e1, e2, e3, e4, e5⟩ :=
        ih r1 h1 h2 (by rw [h4, hE]) (by rw [h3]; omega)
      exact ⟨e1, e2, e3, e4, by rw [e5, h3]; omega⟩

/-- C3: on a freshly created ring of capacity C (0 < C < 2^32), each of
the first C reservations succeeds; after C of them the pending counter is
C, and the (C+1)-th reservation fails with the queue-full error while
returning the ring state completely unchanged (pending, tail, SQE array
and index array untouched). -/
theorem reserve_capacity_then_queue_full (C u : Nat) (h1 : 0 < C)
    (h2 : C < U32) :
    (∀ n, n ≤ C → (prepNopN n (freshRing C)).2 = none) ∧
    (prepNopN C (freshRing C)).1.sqPending = C ∧
    PrepNop (prepNopN C (freshRing C)).1 u =
      ((prepNopN C (freshRing C)).1, some .SQFull) := by
  have base : ∀ n, n ≤ C →
      (prepNopN n (freshRing C)).2 = none ∧
      (prepNopN n (freshRing C)).1.sqHead = 0 ∧
      (prepNopN n (freshRing C)).1.sqTail = 0 ∧
      (prepNopN n (freshRing C)).1.sqEntries = C ∧
      (prepNopN n (freshRing C)).1.sqPending = (freshRing C).sqPending + n :=
    fun n hn =>
      prepNopN_succeeds C h2 n (freshRing C) rfl rfl rfl
        (by simp [freshRing]; omega)
  obtain ⟨f0, fh, ft, fE, fp⟩ := base C le_rfl
  have fp2 : (prepNopN C (freshRing C)).1.sqPending = C := by
    rw [fp]
    simp [freshRing]
  refine ⟨fun n hn => (base n hn).1, fp2, ?_⟩
  have hadd :
      add32 (prepNopN C (freshRing C)).1.sqTail
        (prepNopN C (freshRing C)).1.sqPending = C := by
    rw [ft, fp2]
    unfold add32
    rw [Nat.zero_add]
    exact Nat.mod_eq_of_lt h2
  have hcond :
      (prepNopN C (freshRing C)).1.sqEntries ≤
        sub32
          (add32 (prepNopN C (freshRing C)).1.sqTail
            (prepNopN C (freshRing C)).1.sqPending)
          (prepNopN C (freshRing C)).1.sqHead := by
    rw [hadd, fh, fE]
    unfold sub32
    rw [Nat.zero_mod, Nat.sub_zero, Nat.mod_eq_of_lt h2, Nat.add_mod_right,
      Nat.mod_eq_of_lt h2]
  have hg : getSQE (prepNopN C (freshRing C)).1 =
      ((prepNopN C (freshRing C)).1, none) := by
    unfold getSQE
    rw [if_pos hcond]
  unfold PrepNop
  rw [hg]

/-- Instance of reserve_capacity_then_queue_full at capacity 4. -/
theorem reserve_capacity_then_queue_full_inst :
    0 < 4 ∧ 4 < U32 ∧
    ((∀ n, n ≤ 4 → (prepNopN n (freshRing 4)).2 = none) ∧
      (prepNopN 4 (freshRing 4)).1.sqPending = 4 ∧
      PrepNop (prepNopN 4 (freshRing 4)).1 0 =
        ((prepNopN 4 (freshRing 4)).1, some .SQFull)) :=
  ⟨by decide, by decide, reserve_capacity_then_queue_full 4 0 (by decide) (by decide)⟩

end IoUring
